import Mathlib

/-!
Shallow embedding of `src/AutoTY.py` (Inspirational Shorts pipeline) and
verification of its specified properties.

The script is a linear batch job: it fetches quotes, synthesizes speech,
renders a slide, assembles a short video, builds metadata, uploads on a
schedule and cleans up.  Pure computations (truncation, hashtag building,
scheduling arithmetic, text centering) become Lean functions; the effectful
parts (HTTP, file system, upload) are modelled by passing the external
responses / file-system state explicitly and by an event trace for `main`.
-/

namespace AutoTY

/-- Quote record produced by `fetch_quotes`: `{"quote": ..., "author": ...}`. -/
structure QuoteEntry where
  quote : String
  author : String
deriving DecidableEq, Repr

/-- Raw JSON object of the quotes endpoint; the keys `q` and `a` may be
absent, hence `Option`. -/
structure RawItem where
  q : Option String
  a : Option String
deriving DecidableEq, Repr

/-- Embedding of `fetch_quotes` (src/AutoTY.py lines 63-67).  The HTTP layer
is abstracted: `data` is the decoded JSON array.  The Python body is
`[{"quote": item.get("q", ""), "author": item.get("a", "")} for item in data[:max_entries]]`. -/
def fetch_quotes (data : List RawItem) (max_entries : Nat) : List QuoteEntry :=
  (data.take max_entries).map
    (fun item => { quote := item.q.getD "", author := item.a.getD "" })

/-- Python `s.replace(old, "")` for a one-character pattern `old`: scan the
string and drop every occurrence of the character. -/
def pyReplaceDrop (old : Char) : List Char → List Char
  | [] => []
  | c :: rest => if c = old then pyReplaceDrop old rest else c :: pyReplaceDrop old rest

/-- Embedding of `generate_hashtags` (src/AutoTY.py lines 115-118):
`base = ["Inspiration", "Motivation", "DailyQuote", "Viral", "Shorts"]`,
`author_tag = entry["author"].replace(" ", "")`, result
`["#" + t for t in base + [author_tag]]`. -/
def generate_hashtags (entry : QuoteEntry) : List String :=
  let base := ["Inspiration", "Motivation", "DailyQuote", "Viral", "Shorts"]
  let author_tag := String.mk (pyReplaceDrop ' ' entry.author.data)
  (base ++ [author_tag]).map (fun t => "#" ++ t)

lemma pyReplaceDrop_eq_filter (old : Char) (l : List Char) :
    pyReplaceDrop old l = l.filter (fun c => c ≠ old) := by
  induction l with
  | nil => rfl
  | cons c rest ih =>
    by_cases h : c = old <;> simp [pyReplaceDrop, h, ih, List.filter]

/-- UTC instant, modelled as a day number (days since an arbitrary epoch)
plus the number of microseconds elapsed since midnight of that day
(`datetime` carries microsecond precision). -/
structure PyDatetime where
  day : Nat
  usod : Nat
deriving DecidableEq, Repr

/-- Microseconds in one day. -/
def usPerDay : Nat := 86400000000

/-- Embedding of `datetime.utcnow().replace(hour=9, minute=0, second=0,
microsecond=0)` (src/AutoTY.py line 175): keep the date, set the time of day
to exactly 09:00:00.000000. -/
def startOf (now : PyDatetime) : PyDatetime :=
  { day := now.day, usod := 9 * 3600 * 1000000 }

/-- Adding a `timedelta` of `us` microseconds to a `datetime`, normalising
the day carry. -/
def addUS (d : PyDatetime) (us : Nat) : PyDatetime :=
  { day := d.day + (d.usod + us) / usPerDay, usod := (d.usod + us) % usPerDay }

/-- Microseconds of `datetime.timedelta(days=days, hours=hours)`. -/
def timedeltaUS (days hours : Nat) : Nat :=
  days * 86400000000 + hours * 3600000000

/-- Embedding of the scheduling computation in `main` (src/AutoTY.py lines
190-194): `day_offset = idx // 5`, `slot = idx % 5`,
`publish_time = start + timedelta(days=day_offset, hours=slot*2)`. -/
def publish_time (now : PyDatetime) (idx : Nat) : PyDatetime :=
  addUS (startOf now) (timedeltaUS (idx / 5) (idx % 5 * 2))

lemma addUS_addUS (d : PyDatetime) (a b : Nat) :
    addUS (addUS d a) b = addUS d (a + b) := by
  simp only [addUS, usPerDay, PyDatetime.mk.injEq]
  omega

lemma addUS_start (now : PyDatetime) (days hours : Nat) (h : hours ≤ 14) :
    addUS (startOf now) (timedeltaUS days hours) =
      { day := now.day + days, usod := (9 + hours) * 3600000000 } := by
  simp only [addUS, startOf, timedeltaUS, usPerDay, PyDatetime.mk.injEq]
  omega

/-- Result of the platform's `videos().insert(...).execute()` call: either a
response carrying the new video id, or an `HttpError` with a status code. -/
inductive InsertResult where
  | ok (videoId : String)
  | httpError (status : Nat)
deriving DecidableEq, Repr

/-- Observable outcome of `upload_video` when it returns normally: either the
id of the uploaded video was printed, or the remediation hint for the
permission failure was printed and the item was left not-uploaded. -/
inductive UploadOutcome where
  | uploaded (videoId : String)
  | permissionHint
deriving DecidableEq, Repr

/-- Embedding of the `try/except` of `upload_video` (src/AutoTY.py lines
160-170), parameterised by the platform's response: on success print the id
and return; on `HttpError` with status 403 print the remediation message and
return; on any other `HttpError` re-raise (`Except.error` carries the
re-raised error's status). -/
def upload_video (insertResult : InsertResult) : Except Nat UploadOutcome :=
  match insertResult with
  | .ok videoId => .ok (.uploaded videoId)
  | .httpError status =>
    if status = 403 then .ok .permissionHint else .error status

/-- Audio clip as loaded by `AudioFileClip`, reduced to its duration in
seconds. -/
structure AudioFileClip where
  duration : ℚ
deriving DecidableEq, Repr

/-- Video clip as produced by `VideoFileClip` / `ImageClip`, reduced to its
duration and its attached audio track. -/
structure VideoFileClip where
  duration : ℚ
  audio : Option AudioFileClip
deriving DecidableEq, Repr

/-- moviepy `clip.set_duration(d)`. -/
def set_duration (c : VideoFileClip) (d : ℚ) : VideoFileClip :=
  { c with duration := d }

/-- moviepy `clip.set_audio(a)`. -/
def set_audio (c : VideoFileClip) (a : AudioFileClip) : VideoFileClip :=
  { c with audio := some a }

/-- Output file written by `clip.write_videofile(out, fps=..., codec=...)`,
reduced to the observable duration, frame rate, codec and audio track. -/
structure VideoFile where
  duration : ℚ
  fps : ℚ
  codec : String
  audio : Option AudioFileClip
deriving DecidableEq, Repr

/-- moviepy `clip.write_videofile(out, fps, codec)`. -/
def write_videofile (c : VideoFileClip) (fps : ℚ) (codec : String) : VideoFile :=
  { duration := c.duration, fps := fps, codec := codec, audio := c.audio }

/-- Embedding of `assemble_video` (src/AutoTY.py lines 109-112):
`voice_clip = AudioFileClip(voice_fp)`;
`video_clip = VideoFileClip(slide_fp).set_duration(voice_clip.duration)`;
`video_clip.set_audio(voice_clip).write_videofile(out_fp, fps=24, codec="libx264")`. -/
def assemble_video (voice_clip : AudioFileClip) (slide : VideoFileClip) : VideoFile :=
  let video_clip := set_duration slide voice_clip.duration
  write_videofile (set_audio video_clip voice_clip) 24 "libx264"

/-- Embedding of the video written by `generate_broll_slide` (src/AutoTY.py
lines 74-75 and 105): `ImageClip(frame_path).set_duration(8)` written with
`fps=1, codec="libx264", audio=False`; the still frame itself carries no
duration of its own, so the pre-`set_duration` value is a parameter. -/
def broll_slide (frameDur : ℚ) : VideoFile :=
  write_videofile (set_duration { duration := frameDur, audio := none } 8) 1 "libx264"

/-- Text bounding box returned by `draw.textbbox((0,0), text, ...)`. -/
structure BBox where
  x0 : Int
  y0 : Int
  x1 : Int
  y1 : Int
deriving DecidableEq, Repr

/-- Embedding of the text placement of `create_thumbnail` (src/AutoTY.py
lines 129-132): `tw, th = bbox[2]-bbox[0], bbox[3]-bbox[1]`;
`x, y = (iw - tw)//2, ih - th - 50` (Python `//` is floor division). -/
def create_thumbnail_pos (iw ih : Int) (bbox : BBox) : Int × Int :=
  let tw := bbox.x1 - bbox.x0
  let th := bbox.y1 - bbox.y0
  (Int.fdiv (iw - tw) 2, ih - th - 50)

/-- Embedding of `os.remove(path)` over a file-system state given as the
list of existing paths (distinct in a real file system): removing an
existing path deletes it, removing a missing path raises `OSError`. -/
def osRemove (fs : List String) (path : String) : Except Unit (List String) :=
  if path ∈ fs then .ok (fs.erase path) else .error ()

/-- Embedding of one cleanup step of `main` (src/AutoTY.py lines 201-203):
`try: os.remove(path)` / `except OSError: pass` — the error branch swallows
the exception and leaves the file system unchanged. -/
def tryRemove (fs : List String) (path : String) : List String :=
  match osRemove fs path with
  | .ok fs2 => fs2
  | .error _ => fs

/-- Embedding of the cleanup loop of `main`: `for path in [voice_fp,
slide_fp, video_fp, thumb_fp]: try: os.remove(path) except OSError: pass`. -/
def cleanupFiles (fs : List String) (paths : List String) : List String :=
  paths.foldl tryRemove fs

lemma tryRemove_of_not_mem {fs : List String} {p : String} (h : p ∉ fs) :
    tryRemove fs p = fs := by
  simp [tryRemove, osRemove, h]

lemma mem_of_mem_tryRemove {fs : List String} {p q : String}
    (h : q ∈ tryRemove fs p) : q ∈ fs := by
  by_cases hp : p ∈ fs
  · simpa [tryRemove, osRemove, hp] using List.mem_of_mem_erase (by simpa [tryRemove, osRemove, hp] using h)
  · simpa [tryRemove_of_not_mem hp] using h

lemma nodup_tryRemove {fs : List String} (hnd : fs.Nodup) (p : String) :
    (tryRemove fs p).Nodup := by
  by_cases hp : p ∈ fs
  · simpa [tryRemove, osRemove, hp] using hnd.erase p
  · simpa [tryRemove_of_not_mem hp] using hnd

lemma not_mem_tryRemove_self {fs : List String} (hnd : fs.Nodup) (p : String) :
    p ∉ tryRemove fs p := by
  by_cases hp : p ∈ fs
  · simp only [tryRemove, osRemove, hp, if_pos]
    exact fun hmem => ((hnd.mem_erase_iff).mp hmem).1 rfl
  · rw [tryRemove_of_not_mem hp]
    exact hp

lemma not_mem_cleanupFiles {q : String} :
    ∀ (paths : List String) (fs : List String), q ∉ fs → q ∉ cleanupFiles fs paths
  | [], _, h => h
  | p :: rest, fs, h =>
    not_mem_cleanupFiles rest (tryRemove fs p) (fun hmem => h (mem_of_mem_tryRemove hmem))

lemma nodup_cleanupFiles :
    ∀ (paths : List String) (fs : List String), fs.Nodup → (cleanupFiles fs paths).Nodup
  | [], _, h => h
  | p :: rest, fs, h => nodup_cleanupFiles rest (tryRemove fs p) (nodup_tryRemove h p)

lemma cleanupFiles_removes :
    ∀ (paths : List String) (fs : List String), fs.Nodup →
      ∀ p ∈ paths, p ∉ cleanupFiles fs paths := by
  intro paths
  induction paths with
  | nil => intro fs _ p hp; cases hp
  | cons r rest ih =>
    intro fs hnd p hp
    rcases List.mem_cons.mp hp with rfl | hp2
    · exact not_mem_cleanupFiles rest (tryRemove fs p) (not_mem_tryRemove_self hnd p)
    · exact ih (tryRemove fs r) (nodup_tryRemove hnd r) p hp2

lemma cleanupFiles_of_disjoint :
    ∀ (paths : List String) (fs : List String), (∀ p ∈ paths, p ∉ fs) →
      cleanupFiles fs paths = fs := by
  intro paths
  induction paths with
  | nil => intro fs _; rfl
  | cons r rest ih =>
    intro fs h
    have hr : r ∉ fs := h r (List.mem_cons_self r rest)
    show cleanupFiles (tryRemove fs r) rest = fs
    rw [tryRemove_of_not_mem hr]
    exact ih fs (fun p hp => h p (List.mem_cons_of_mem r hp))

/-- Stage events of one iteration of the `main` loop, indexed by the item
number `i`: media generation stages, the `get_authenticated_service` call
inside `upload_video`, the upload outcome, and the per-item cleanup loop. -/
inductive Event where
  | synth (i : Nat)
  | broll (i : Nat)
  | assembleStage (i : Nat)
  | thumb (i : Nat)
  | authService (i : Nat)
  | uploadOk (i : Nat)
  | permHint (i : Nat)
  | cleanupItem (i : Nat)
deriving DecidableEq, Repr

/-- Events of one `upload_video(...)` call for item `i` given the platform's
response, together with whether the call re-raised: the authentication call
always happens first (src/AutoTY.py line 154); a 403 prints the hint and
returns; any other `HttpError` propagates out of `main`. -/
def uploadEvents (i : Nat) : InsertResult → List Event × Bool
  | .ok _ => ([.authService i, .uploadOk i], false)
  | .httpError s =>
    if s = 403 then ([.authService i, .permHint i], false) else ([.authService i], true)

/-- Events of a full non-raising loop iteration for item `i`. -/
def itemTrace (i : Nat) (r : InsertResult) : List Event :=
  [Event.synth i, Event.broll i, Event.assembleStage i, Event.thumb i] ++
    (uploadEvents i r).1 ++ [Event.cleanupItem i]

/-- Event trace of the `for idx, entry in enumerate(quotes)` loop of `main`
(src/AutoTY.py lines 176-203), for `k` remaining items starting at index
`i`; `beh j` is the platform's response to the upload of item `j`.  Each
iteration runs the four generation stages, then `upload_video`; if the
upload re-raises, the run aborts (no cleanup, no further items), otherwise
cleanup runs and the loop continues. -/
def runItems (beh : Nat → InsertResult) : Nat → Nat → List Event
  | 0, _ => []
  | k + 1, i =>
    let stages := [Event.synth i, Event.broll i, Event.assembleStage i, Event.thumb i]
    let ue := uploadEvents i (beh i)
    if ue.2 then stages ++ ue.1
    else stages ++ ue.1 ++ [Event.cleanupItem i] ++ runItems beh k (i + 1)

/-- Event trace of a run of `main` over `n` quote items. -/
def mainRun (n : Nat) (beh : Nat → InsertResult) : List Event :=
  runItems beh n 0

/-- Number of `get_authenticated_service` invocations recorded in a trace. -/
def countAuth (trace : List Event) : Nat :=
  (trace.filter fun e => match e with | .authService _ => true | _ => false).length

/-- Whether an upload response lets `upload_video` return normally: success,
or an `HttpError` whose status is exactly 403. -/
def noRaise : InsertResult → Bool
  | .ok _ => true
  | .httpError s => s == 403

/-- Platform behavior where the upload of item 0 fails with a 403 error and
every other upload succeeds. -/
def behPermOnFirst : Nat → InsertResult :=
  fun i => if i = 0 then .httpError 403 else .ok "id"

/-- Platform behavior where every upload succeeds. -/
def behAllOk : Nat → InsertResult := fun _ => .ok "id"

lemma runItems_succ_of_noRaise (beh : Nat → InsertResult) (k i : Nat)
    (h : noRaise (beh i) = true) :
    runItems beh (k + 1) i = itemTrace i (beh i) ++ runItems beh k (i + 1) := by
  cases hbeh : beh i with
  | ok v => simp [runItems, uploadEvents, itemTrace, hbeh]
  | httpError s =>
    have hs : s = 403 := by simpa [noRaise, hbeh] using h
    simp [runItems, uploadEvents, itemTrace, hbeh, hs]

lemma mem_itemTrace (i : Nat) (r : InsertResult) :
    Event.synth i ∈ itemTrace i r ∧ Event.broll i ∈ itemTrace i r ∧
    Event.assembleStage i ∈ itemTrace i r ∧ Event.thumb i ∈ itemTrace i r ∧
    Event.authService i ∈ itemTrace i r ∧ Event.cleanupItem i ∈ itemTrace i r := by
  cases r with
  | ok v => simp [itemTrace, uploadEvents]
  | httpError s =>
    by_cases hs : s = 403 <;> simp [itemTrace, uploadEvents, hs]

lemma countAuth_append (a b : List Event) :
    countAuth (a ++ b) = countAuth a + countAuth b := by
  simp [countAuth, List.filter_append]

lemma countAuth_itemTrace (i : Nat) (r : InsertResult) :
    countAuth (itemTrace i r) = 1 := by
  cases r with
  | ok v => rfl
  | httpError s =>
    by_cases hs : s = 403 <;> simp [itemTrace, uploadEvents, hs, countAuth]

lemma runItems_all_items (beh : Nat → InsertResult) :
    ∀ (k i : Nat), (∀ j, i ≤ j → j < i + k → noRaise (beh j) = true) →
      ∀ j, i ≤ j → j < i + k →
        Event.synth j ∈ runItems beh k i ∧ Event.broll j ∈ runItems beh k i ∧
        Event.assembleStage j ∈ runItems beh k i ∧ Event.thumb j ∈ runItems beh k i ∧
        Event.authService j ∈ runItems beh k i ∧ Event.cleanupItem j ∈ runItems beh k i := by
  intro k
  induction k with
  | zero => intro i _ j h1 h2; omega
  | succ k ih =>
    intro i h j h1 h2
    have hni : noRaise (beh i) = true := h i (Nat.le_refl i) (by omega)
    rw [runItems_succ_of_noRaise beh k i hni]
    rcases Nat.eq_or_lt_of_le h1 with heq | hlt
    · rw [← heq]
      obtain ⟨m1, m2, m3, m4, m5, m6⟩ := mem_itemTrace i (beh i)
      exact ⟨List.mem_append_left _ m1, List.mem_append_left _ m2,
        List.mem_append_left _ m3, List.mem_append_left _ m4,
        List.mem_append_left _ m5, List.mem_append_left _ m6⟩
    · have hrest : ∀ j2, i + 1 ≤ j2 → j2 < i + 1 + k → noRaise (beh j2) = true :=
        fun j2 ha hb => h j2 (by omega) (by omega)
      obtain ⟨m1, m2, m3, m4, m5, m6⟩ := ih (i + 1) hrest j (by omega) (by omega)
      exact ⟨List.mem_append_right _ m1, List.mem_append_right _ m2,
        List.mem_append_right _ m3, List.mem_append_right _ m4,
        List.mem_append_right _ m5, List.mem_append_right _ m6⟩

lemma countAuth_runItems (beh : Nat → InsertResult) :
    ∀ (k i : Nat), (∀ j, i ≤ j → j < i + k → noRaise (beh j) = true) →
      countAuth (runItems beh k i) = k := by
  intro k
  induction k with
  | zero => intro i _; rfl
  | succ k ih =>
    intro i h
    have hni : noRaise (beh i) = true := h i (Nat.le_refl i) (by omega)
    rw [runItems_succ_of_noRaise beh k i hni, countAuth_append,
      countAuth_itemTrace, ih (i + 1) (fun j2 ha hb => h j2 (by omega) (by omega))]
    omega

end AutoTY

/-- C1: for every item index `i`, the scheduled publish time is the base
time (today at 09:00:00 UTC, sub-hour fields zeroed) plus `i / 5` days plus
`i % 5 * 2` hours; for the run of `N = 10` items, items 0-4 land today at
09:00, 11:00, 13:00, 15:00, 17:00 UTC and items 5-9 on the next day at the
same times. -/
theorem publish_time_spec (now : AutoTY.PyDatetime) (i : Nat) (h : i < 10) :
    AutoTY.publish_time now i =
      AutoTY.addUS (AutoTY.addUS (AutoTY.startOf now) (i / 5 * 86400000000))
        (i % 5 * 2 * 3600000000) ∧
    (i < 5 → AutoTY.publish_time now i =
      { day := now.day, usod := (9 + 2 * i) * 3600000000 }) ∧
    (5 ≤ i → AutoTY.publish_time now i =
      { day := now.day + 1, usod := (9 + 2 * (i - 5)) * 3600000000 }) := by
  refine ⟨?_, ?_, ?_⟩
  · rw [AutoTY.addUS_addUS]
    rfl
  · intro h5
    rw [AutoTY.publish_time, AutoTY.addUS_start now (i / 5) (i % 5 * 2) (by omega)]
    have hd : i / 5 = 0 := Nat.div_eq_of_lt h5
    have hm : i % 5 = i := Nat.mod_eq_of_lt h5
    rw [hd, hm]
    simp only [AutoTY.PyDatetime.mk.injEq]
    omega
  · intro h5
    rw [AutoTY.publish_time, AutoTY.addUS_start now (i / 5) (i % 5 * 2) (by omega)]
    have hd : i / 5 = 1 := by omega
    have hm : i % 5 = i - 5 := by omega
    rw [hd, hm]
    simp only [AutoTY.PyDatetime.mk.injEq]
    exact ⟨trivial, by ring⟩

/-- Witness for C1: with the clock at day 20000, 12:34:56.789 UTC, item 7 is
scheduled on day 20001 at 13:00 UTC. -/
theorem publish_time_spec_witness :
    AutoTY.publish_time { day := 20000, usod := 45296789000 } 7 =
      AutoTY.addUS
        (AutoTY.addUS (AutoTY.startOf { day := 20000, usod := 45296789000 })
          (7 / 5 * 86400000000)) (7 % 5 * 2 * 3600000000) ∧
    (7 < 5 → AutoTY.publish_time { day := 20000, usod := 45296789000 } 7 =
      { day := 20000, usod := (9 + 2 * 7) * 3600000000 }) ∧
    (5 ≤ 7 → AutoTY.publish_time { day := 20000, usod := 45296789000 } 7 =
      { day := 20000 + 1, usod := (9 + 2 * (7 - 5)) * 3600000000 }) :=
  publish_time_spec { day := 20000, usod := 45296789000 } 7 (by decide)

/-- C2: `generate_hashtags` depends only on the author string and returns
exactly the six tags `#Inspiration, #Motivation, #DailyQuote, #Viral,
#Shorts` followed by `#` prepended to the author name with every space
character removed, in that order; e.g. author "Maya Angelou" yields
`#MayaAngelou`. -/
theorem generate_hashtags_spec (entry : AutoTY.QuoteEntry) :
    AutoTY.generate_hashtags entry =
      ["#Inspiration", "#Motivation", "#DailyQuote", "#Viral", "#Shorts",
        "#" ++ String.mk (entry.author.data.filter (fun c => c ≠ ' '))] ∧
    AutoTY.generate_hashtags { quote := entry.quote, author := "Maya Angelou" } =
      ["#Inspiration", "#Motivation", "#DailyQuote", "#Viral", "#Shorts", "#MayaAngelou"] := by
  constructor
  · simp [AutoTY.generate_hashtags, AutoTY.pyReplaceDrop_eq_filter]
  · simp [AutoTY.generate_hashtags, AutoTY.pyReplaceDrop_eq_filter]

/-- C3: on a response array longer than `max_entries = 10`, `fetch_quotes`
returns exactly the first 10 entries, in order, each mapped to
`{quote := item.q or "", author := item.a or ""}`. -/
theorem fetch_quotes_truncates (data : List AutoTY.RawItem) (h : 10 < data.length) :
    (AutoTY.fetch_quotes data 10).length = 10 ∧
    ∀ j, j < 10 →
      (AutoTY.fetch_quotes data 10)[j]? =
        (data[j]?).map (fun item => { quote := item.q.getD "", author := item.a.getD "" }) := by
  constructor
  · simp [AutoTY.fetch_quotes]
    omega
  · intro j hj
    simp [AutoTY.fetch_quotes, List.getElem?_take, hj]

/-- Witness for C3 at a concrete 11-element response. -/
theorem fetch_quotes_truncates_witness :
    (AutoTY.fetch_quotes (List.replicate 11 { q := some "s", a := none }) 10).length = 10 ∧
    ∀ j, j < 10 →
      (AutoTY.fetch_quotes (List.replicate 11 { q := some "s", a := none }) 10)[j]? =
        ((List.replicate 11 ({ q := some "s", a := none } : AutoTY.RawItem))[j]?).map
          (fun item => { quote := item.q.getD "", author := item.a.getD "" }) :=
  fetch_quotes_truncates (List.replicate 11 { q := some "s", a := none }) (by decide)

/-- C10: every entry returned by `fetch_quotes` comes from a source element
with missing `q`/`a` keys defaulted to the empty string (so both fields are
always present strings), and a response with at most `max_entries` elements
is returned whole. -/
theorem fetch_quotes_defaults (data : List AutoTY.RawItem) (max_entries : Nat) :
    (∀ e ∈ AutoTY.fetch_quotes data max_entries, ∃ item ∈ data,
        e.quote = item.q.getD "" ∧ e.author = item.a.getD "") ∧
    (data.length ≤ max_entries →
      AutoTY.fetch_quotes data max_entries =
        data.map (fun item => { quote := item.q.getD "", author := item.a.getD "" })) := by
  constructor
  · intro e he
    obtain ⟨item, hmem, rfl⟩ := List.mem_map.mp he
    exact ⟨item, List.mem_of_mem_take hmem, rfl, rfl⟩
  · intro hlen
    simp [AutoTY.fetch_quotes, List.take_of_length_le hlen]

/-- Witness for C10 at a concrete 2-element response with a missing key. -/
theorem fetch_quotes_defaults_witness :
    (∀ e ∈ AutoTY.fetch_quotes [{ q := none, a := some "A" }, { q := some "w", a := none }] 10,
      ∃ item ∈ ([{ q := none, a := some "A" }, { q := some "w", a := none }] : List AutoTY.RawItem),
        e.quote = item.q.getD "" ∧ e.author = item.a.getD "") ∧
    AutoTY.fetch_quotes [{ q := none, a := some "A" }, { q := some "w", a := none }] 10 =
      ([{ q := none, a := some "A" }, { q := some "w", a := none }] : List AutoTY.RawItem).map
        (fun item => { quote := item.q.getD "", author := item.a.getD "" }) :=
  ⟨(fetch_quotes_defaults [{ q := none, a := some "A" }, { q := some "w", a := none }] 10).1,
    (fetch_quotes_defaults [{ q := none, a := some "A" }, { q := some "w", a := none }] 10).2
      (by decide)⟩

/-- C4: when the platform upload raises an `HttpError` with status 403,
`upload_video` prints the remediation message and returns normally without
raising; for an `HttpError` with any other status it re-raises the error. -/
theorem upload_video_spec (status : Nat) :
    (status = 403 →
      AutoTY.upload_video (.httpError status) = .ok .permissionHint) ∧
    (status ≠ 403 →
      AutoTY.upload_video (.httpError status) = .error status) := by
  constructor
  · intro h
    simp [AutoTY.upload_video, h]
  · intro h
    simp [AutoTY.upload_video, h]

/-- Witness for C4 at statuses 403 and 500. -/
theorem upload_video_spec_witness :
    AutoTY.upload_video (.httpError 403) = .ok .permissionHint ∧
    AutoTY.upload_video (.httpError 500) = .error 500 :=
  ⟨(upload_video_spec 403).1 rfl, (upload_video_spec 500).2 (by decide)⟩

/-- C7: for every voice audio clip and slide video clip, the video written by
`assemble_video` has exactly the duration of the voice audio, whatever the
slide's duration — in particular also for the 8-second video that
`generate_broll_slide` writes. -/
theorem assemble_video_duration (voice_clip : AutoTY.AudioFileClip)
    (slide : AutoTY.VideoFileClip) (frameDur : ℚ) :
    (AutoTY.assemble_video voice_clip slide).duration = voice_clip.duration ∧
    (AutoTY.broll_slide frameDur).duration = 8 ∧
    (AutoTY.assemble_video voice_clip
      { duration := (AutoTY.broll_slide frameDur).duration,
        audio := none }).duration = voice_clip.duration := by
  refine ⟨rfl, rfl, rfl⟩

/-- C8: `create_thumbnail` centers the title horizontally: for a template of
width `iw` and a measured text bounding box of width `tw = x1 - x0`, the
x-offset of the drawn text is exactly the integer quotient `(iw - tw) / 2`
(Python floor division, which agrees with `Int` division by the positive
constant 2). -/
theorem create_thumbnail_centered (iw ih : Int) (bbox : AutoTY.BBox) :
    (AutoTY.create_thumbnail_pos iw ih bbox).1 = (iw - (bbox.x1 - bbox.x0)) / 2 ∧
    2 * (AutoTY.create_thumbnail_pos iw ih bbox).1 ≤ iw - (bbox.x1 - bbox.x0) ∧
    iw - (bbox.x1 - bbox.x0) < 2 * (AutoTY.create_thumbnail_pos iw ih bbox).1 + 2 := by
  have hq : (AutoTY.create_thumbnail_pos iw ih bbox).1 = (iw - (bbox.x1 - bbox.x0)) / 2 :=
    Int.fdiv_eq_ediv (iw - (bbox.x1 - bbox.x0)) (by norm_num)
  refine ⟨hq, ?_, ?_⟩
  · rw [hq]
    omega
  · rw [hq]
    omega

/-- C9: per-item cleanup is idempotent and total: removing a path that does
not exist leaves the file system unchanged instead of raising (the `OSError`
is swallowed), after cleanup none of the given paths remains, and running
the same cleanup again changes nothing, so cleanup of the remaining paths
always proceeds. -/
theorem cleanup_idempotent_total (fs paths : List String) (hnd : fs.Nodup) :
    (∀ p, p ∉ fs → AutoTY.tryRemove fs p = fs) ∧
    (∀ p ∈ paths, p ∉ AutoTY.cleanupFiles fs paths) ∧
    AutoTY.cleanupFiles (AutoTY.cleanupFiles fs paths) paths =
      AutoTY.cleanupFiles fs paths := by
  refine ⟨fun p hp => AutoTY.tryRemove_of_not_mem hp,
    AutoTY.cleanupFiles_removes paths fs hnd, ?_⟩
  exact AutoTY.cleanupFiles_of_disjoint paths _
    (fun p hp => AutoTY.cleanupFiles_removes paths fs hnd p hp)

/-- Witness for C9 on a concrete file system where one artifact is already
gone. -/
theorem cleanup_idempotent_total_witness :
    (∀ p, p ∉ ["temp/voice_0.mp3", "temp/slide_0.mp4"] →
      AutoTY.tryRemove ["temp/voice_0.mp3", "temp/slide_0.mp4"] p =
        ["temp/voice_0.mp3", "temp/slide_0.mp4"]) ∧
    (∀ p ∈ ["temp/voice_0.mp3", "temp/thumb_0.png"],
      p ∉ AutoTY.cleanupFiles ["temp/voice_0.mp3", "temp/slide_0.mp4"]
        ["temp/voice_0.mp3", "temp/thumb_0.png"]) ∧
    AutoTY.cleanupFiles
      (AutoTY.cleanupFiles ["temp/voice_0.mp3", "temp/slide_0.mp4"]
        ["temp/voice_0.mp3", "temp/thumb_0.png"])
      ["temp/voice_0.mp3", "temp/thumb_0.png"] =
      AutoTY.cleanupFiles ["temp/voice_0.mp3", "temp/slide_0.mp4"]
        ["temp/voice_0.mp3", "temp/thumb_0.png"] :=
  cleanup_idempotent_total ["temp/voice_0.mp3", "temp/slide_0.mp4"]
    ["temp/voice_0.mp3", "temp/thumb_0.png"] (by decide)

/-- Counterexample to C5: in a 2-item run where the upload of item 0 fails
with status 403, `upload_video` returns normally with the remediation hint,
item 0 is cleaned up, and — contrary to the claim — every stage of item 1
(voice synthesis, slide, assembly, thumbnail, upload) is still executed. -/
theorem perm_error_stops_run_counterexample :
    AutoTY.upload_video (AutoTY.behPermOnFirst 0) = .ok .permissionHint ∧
    AutoTY.Event.cleanupItem 0 ∈ AutoTY.mainRun 2 AutoTY.behPermOnFirst ∧
    AutoTY.Event.synth 1 ∈ AutoTY.mainRun 2 AutoTY.behPermOnFirst ∧
    AutoTY.Event.broll 1 ∈ AutoTY.mainRun 2 AutoTY.behPermOnFirst ∧
    AutoTY.Event.assembleStage 1 ∈ AutoTY.mainRun 2 AutoTY.behPermOnFirst ∧
    AutoTY.Event.thumb 1 ∈ AutoTY.mainRun 2 AutoTY.behPermOnFirst ∧
    AutoTY.Event.authService 1 ∈ AutoTY.mainRun 2 AutoTY.behPermOnFirst ∧
    AutoTY.Event.uploadOk 1 ∈ AutoTY.mainRun 2 AutoTY.behPermOnFirst := by
  refine ⟨rfl, ?_, ?_, ?_, ?_, ?_, ?_, ?_⟩ <;> decide

/-- C5 amended: a caught 403 on item `k` does not end the run: item `k`'s
files are cleaned up and the loop proceeds, so in a run where every upload
either succeeds or fails with the caught 403, every stage (voice synthesis,
slide generation, assembly, thumbnail, authentication, cleanup) is executed
for every item, including those after `k`. -/
theorem run_continues_after_perm_error (n : Nat) (beh : Nat → AutoTY.InsertResult)
    (h : ∀ j, j < n → AutoTY.noRaise (beh j) = true) (j : Nat) (hj : j < n) :
    AutoTY.Event.synth j ∈ AutoTY.mainRun n beh ∧
    AutoTY.Event.broll j ∈ AutoTY.mainRun n beh ∧
    AutoTY.Event.assembleStage j ∈ AutoTY.mainRun n beh ∧
    AutoTY.Event.thumb j ∈ AutoTY.mainRun n beh ∧
    AutoTY.Event.authService j ∈ AutoTY.mainRun n beh ∧
    AutoTY.Event.cleanupItem j ∈ AutoTY.mainRun n beh := by
  exact AutoTY.runItems_all_items beh n 0
    (fun j2 _ hb => h j2 (by omega)) j (Nat.zero_le j) (by omega)

/-- Witness for the amended C5: with a 403 on item 0 of a 2-item run, every
stage of item 1 appears in the trace. -/
theorem run_continues_after_perm_error_witness :
    AutoTY.Event.synth 1 ∈ AutoTY.mainRun 2 AutoTY.behPermOnFirst ∧
    AutoTY.Event.broll 1 ∈ AutoTY.mainRun 2 AutoTY.behPermOnFirst ∧
    AutoTY.Event.assembleStage 1 ∈ AutoTY.mainRun 2 AutoTY.behPermOnFirst ∧
    AutoTY.Event.thumb 1 ∈ AutoTY.mainRun 2 AutoTY.behPermOnFirst ∧
    AutoTY.Event.authService 1 ∈ AutoTY.mainRun 2 AutoTY.behPermOnFirst ∧
    AutoTY.Event.cleanupItem 1 ∈ AutoTY.mainRun 2 AutoTY.behPermOnFirst :=
  run_continues_after_perm_error 2 AutoTY.behPermOnFirst (by decide) 1 (by decide)

/-- Counterexample to C6: already in a 2-item run with successful uploads,
the `get_authenticated_service` step runs twice — `upload_video` calls it on
every invocation — so it is not executed at most once per run. -/
theorem auth_once_counterexample :
    ¬ AutoTY.countAuth (AutoTY.mainRun 2 AutoTY.behAllOk) ≤ 1 := by decide

/-- C6 amended: `get_authenticated_service` is invoked on every call of
`upload_video`, i.e. once per loop iteration: a run over `n` items in which
every upload returns normally performs the authentication step exactly `n`
times (the cached credential file only spares the interactive flow, not the
call). -/
theorem auth_called_per_item (n : Nat) (beh : Nat → AutoTY.InsertResult)
    (h : ∀ j, j < n → AutoTY.noRaise (beh j) = true) :
    AutoTY.countAuth (AutoTY.mainRun n beh) = n := by
  have hrun := AutoTY.countAuth_runItems beh n 0 (fun j2 _ hb => h j2 (by omega))
  simpa [AutoTY.mainRun] using hrun

/-- Witness for the amended C6: a clean 3-item run authenticates 3 times. -/
theorem auth_called_per_item_witness :
    AutoTY.countAuth (AutoTY.mainRun 3 AutoTY.behAllOk) = 3 :=
  auth_called_per_item 3 AutoTY.behAllOk (by decide)
